import Mathlib

/-!
Verification development for the `transaction-watcher-service` in-memory
message broker (`broker/broker.go`, `broker/types.go`).

The Go code is shallowly embedded as pure state-passing functions:

* `sync.Map` registries become association lists over `String` keys
  (`alook` is `Load`, `aset` is `Store`, and `LoadOrStore` is spelled out
  at each use site exactly as the Go call sequence does it);
* a buffered `chan Message` of capacity `c` becomes a `List Message`
  (send appends at the tail, receive takes the head) together with the
  rule that a non-blocking send succeeds iff the list is shorter than `c`;
* `time.Now()` is a logical clock held in the broker state and bumped on
  every stamping;
* a subscriber endpoint (`chan Message`) is identified by a `Nat` handle;
  `close(ch)` increments the endpoint's `closeCount` (Go panics when an
  already-closed channel is closed, i.e. when `closeCount` reaches 2);
* Go's `select` in `PullWithTimeout` is modelled sequentially: with
  `timeout = 0` the code takes the explicit non-blocking branch; with
  `timeout ≠ 0` it builds `context.WithTimeout`, so in a single-caller
  execution an empty buffer always ends in the timeout case, a non-empty
  buffer with a positive timeout delivers, and a non-empty buffer with a
  negative timeout (deadline already expired) has both select arms ready,
  which is resolved by an explicit oracle argument `sel`;
* `int64`/`int32` counters become `Int` (no schedule considered here gets
  anywhere near the 2^63 wrap, so modular wrap-around is not modelled);
* Go errors become `Option String` carrying the literal `fmt.Errorf` text.
-/

set_option maxRecDepth 8000

namespace SimpleBroker

/-- `Message` from broker/types.go: ID, Body, Headers, Timestamp, Attempts,
MaxRetry, Queue. The payload is an opaque byte list, the timestamp a logical
clock value. -/
structure Message where
  id : String
  body : List Nat
  headers : List (String × String)
  timestamp : Nat
  attempts : Int
  maxRetry : Int
  queue : String
deriving DecidableEq

/-- `QueueStats` from broker/types.go. -/
structure QueueStats where
  name : String
  messageCount : Int
  consumerCount : Int
  enqueuedTotal : Int
  dequeuedTotal : Int
  deadLetterCount : Int
deriving DecidableEq

/-- `Metrics` from broker/types.go. `QueueMetrics` maps names to stats
records; no broker operation ever reads it back, so only the registered key
set is kept (the Go value for an existing key is a detached stats struct
anyway, see `createMessageQueue`). -/
structure Metrics where
  totalMessages : Int
  processedMessages : Int
  failedMessages : Int
  activeQueues : Int
  activeConsumers : Int
  startTime : Nat
  queueMetricsNames : List String
deriving DecidableEq

/-- `messageQueue` from broker/broker.go: a name, the buffered channel
(capacity 1000), and the stats record. -/
structure MessageQueue where
  name : String
  messages : List Message
  stats : QueueStats
deriving DecidableEq

/-- A subscriber endpoint: one `chan Message` handed out by `Subscribe`.
`closeCount` counts executions of Go's `close` on it; Go panics with
"close of closed channel" as soon as it would exceed 1. -/
structure Endpoint where
  id : Nat
  buffer : List Message
  closeCount : Nat
deriving DecidableEq

/-- `subscriberManager` from broker/broker.go: the ordered subscriber list
of one topic, holding endpoint handles. -/
structure SubscriberManager where
  topic : String
  subscribers : List Nat
deriving DecidableEq

/-- The full `SimpleBroker` state: the three `sync.Map` registries, the
metrics record, the closed flag, plus the endpoint heap, the next fresh
endpoint handle and the logical clock. -/
structure BrokerState where
  queues : List (String × MessageQueue)
  subscribersMap : List (String × SubscriberManager)
  deadLetters : List (String × List Message)
  metrics : Metrics
  closed : Bool
  endpoints : List Endpoint
  nextEndpointId : Nat
  clock : Nat
deriving DecidableEq

/-- Association-list lookup: `sync.Map.Load`. -/
def alook {α : Type} : List (String × α) → String → Option α
  | [], _ => none
  | (k', v) :: rest, k => if k' = k then some v else alook rest k

/-- Association-list store: `sync.Map.Store` (replace the binding if the key
is present, append it otherwise). -/
def aset {α : Type} : List (String × α) → String → α → List (String × α)
  | [], k, v => [(k, v)]
  | (k', v') :: rest, k, v =>
      if k' = k then (k, v) :: rest else (k', v') :: aset rest k v

/-- Go map-key insertion for `Metrics.QueueMetrics` (only the key set is
modelled). -/
def insertName (l : List String) (n : String) : List String :=
  if n ∈ l then l else l ++ [n]

/-- Queue channel capacity: `make(chan Message, 1000)` in
`createMessageQueue`. -/
def queueBufferCap : Nat := 1000

/-- Subscriber channel capacity: `make(chan Message, 100)` in `Subscribe`. -/
def subscriberBufferCap : Nat := 100

def closedErr : String := "broker is closed"

def alreadyClosedErr : String := "broker is already closed"

def unknownQueueErr (q : String) : String := "queue " ++ q ++ " does not exist"

def timeoutErr (q : String) : String :=
  "timeout waiting for message from queue " ++ q

def noDLQErr (q : String) : String := "no dead letters for queue " ++ q

def notFoundErr (id : String) : String :=
  "message " ++ id ++ " not found in dead letter queue"

def unknownTopicErr (t : String) : String := "topic " ++ t ++ " does not exist"

/-- `NewMetrics`: zeroed counters, start time "now", empty queue map. -/
def NewMetrics (now : Nat) : Metrics :=
  { totalMessages := 0, processedMessages := 0, failedMessages := 0,
    activeQueues := 0, activeConsumers := 0, startTime := now,
    queueMetricsNames := [] }

/-- `NewSimpleBroker` at logical time 0: all registries empty, open. -/
def initState : BrokerState :=
  { queues := [], subscribersMap := [], deadLetters := [],
    metrics := NewMetrics 0, closed := false, endpoints := [],
    nextEndpointId := 0, clock := 0 }

/-- `NewMessage` from broker/types.go: attempts 0, MaxRetry 3, empty
headers, timestamp "now". -/
def NewMessage (id : String) (body : List Nat) (queue : String) (now : Nat) :
    Message :=
  { id := id, body := body, headers := [], timestamp := now, attempts := 0,
    maxRetry := 3, queue := queue }

/-- `createMessageQueue`: registers a fresh zeroed stats record under the
name in `Metrics.QueueMetrics`, increments `ActiveQueues`, and returns the
fresh queue with an empty capacity-1000 buffer. Note that in `Push` the Go
code evaluates this as the `LoadOrStore` argument on *every* call. -/
def createMessageQueue (m : Metrics) (name : String) :
    Metrics × MessageQueue :=
  ({ m with queueMetricsNames := insertName m.queueMetricsNames name,
            activeQueues := m.activeQueues + 1 },
   { name := name, messages := [],
     stats := { name := name, messageCount := 0, consumerCount := 0,
                enqueuedTotal := 0, dequeuedTotal := 0, deadLetterCount := 0 } })

/-- `MoveToDLQ`: bump the message's attempt counter, append it to the
(lazily created) per-queue dead-letter slice, bump the owning queue's
dead-letter stat when the queue record exists, bump the global failed
counter; always returns nil. -/
def MoveToDLQ (s : BrokerState) (queue : String) (msg : Message) :
    BrokerState × Option String :=
  let msg1 := { msg with attempts := msg.attempts + 1 }
  let dlq := (alook s.deadLetters queue).getD []
  let s1 := { s with deadLetters := aset s.deadLetters queue (dlq ++ [msg1]) }
  let s2 :=
    match alook s1.queues queue with
    | some mq =>
        let mq' := { mq with stats :=
          { mq.stats with deadLetterCount := mq.stats.deadLetterCount + 1 } }
        { s1 with queues := aset s1.queues queue mq' }
    | none => s1
  ({ s2 with metrics :=
      { s2.metrics with failedMessages := s2.metrics.failedMessages + 1 } },
   none)

/-- `Push`: fail when closed; stamp queue name and timestamp; evaluate
`createMessageQueue` (the Go `LoadOrStore` argument, always run) and then
get-or-create the queue record; non-blocking send into the buffer, with
overflow diverted through `MoveToDLQ`. -/
def Push (s : BrokerState) (queue : String) (msg0 : Message) :
    BrokerState × Option String :=
  if s.closed then (s, some closedErr)
  else
    let msg := { msg0 with queue := queue, timestamp := s.clock }
    let s1 := { s with clock := s.clock + 1 }
    let mfq := createMessageQueue s1.metrics queue
    let s2 := { s1 with metrics := mfq.1 }
    let qm :=
      match alook s2.queues queue with
      | some q => (s2.queues, q)
      | none => (aset s2.queues queue mfq.2, mfq.2)
    let s3 := { s2 with queues := qm.1 }
    let mq := qm.2
    if mq.messages.length < queueBufferCap then
      let mq' := { mq with
        messages := mq.messages ++ [msg],
        stats := { mq.stats with
          messageCount := mq.stats.messageCount + 1,
          enqueuedTotal := mq.stats.enqueuedTotal + 1 } }
      ({ s3 with
          queues := aset s3.queues queue mq',
          metrics := { s3.metrics with
            totalMessages := s3.metrics.totalMessages + 1 } },
       none)
    else
      MoveToDLQ s3 queue msg

/-- The shared receive bookkeeping of both `PullWithTimeout` branches:
pop the head, decrement depth, bump the dequeued and processed counters. -/
def deliverMsg (s : BrokerState) (queue : String) (mq : MessageQueue)
    (msg : Message) (rest : List Message) :
    BrokerState × Option Message × Option String :=
  let mq' := { mq with
    messages := rest,
    stats := { mq.stats with
      messageCount := mq.stats.messageCount - 1,
      dequeuedTotal := mq.stats.dequeuedTotal + 1 } }
  ({ s with
      queues := aset s.queues queue mq',
      metrics := { s.metrics with
        processedMessages := s.metrics.processedMessages + 1 } },
   some msg, none)

/-- `PullWithTimeout`. `timeout = 0` is the explicit non-blocking branch of
the Go code. Any other timeout takes the blocking branch built on
`context.WithTimeout`: sequentially, an empty buffer ends in the timeout
case (immediately for a negative timeout, after the wait otherwise); a
non-empty buffer delivers when the timeout is positive, and with a negative
timeout (deadline already expired) both select arms are ready, resolved by
the oracle `sel` (`true` = deliver). -/
def PullWithTimeout (s : BrokerState) (queue : String) (timeout : Int)
    (sel : Bool) : BrokerState × Option Message × Option String :=
  if s.closed then (s, none, some closedErr)
  else
    match alook s.queues queue with
    | none => (s, none, some (unknownQueueErr queue))
    | some mq =>
      if timeout = 0 then
        match mq.messages with
        | [] => (s, none, none)
        | msg :: rest => deliverMsg s queue mq msg rest
      else
        match mq.messages with
        | [] => (s, none, some (timeoutErr queue))
        | msg :: rest =>
          if 0 < timeout then deliverMsg s queue mq msg rest
          else if sel then deliverMsg s queue mq msg rest
          else (s, none, some (timeoutErr queue))

/-- `Pull` is `PullWithTimeout` with timeout 0; the select oracle is unused
on that path. -/
def Pull (s : BrokerState) (queue : String) :
    BrokerState × Option Message × Option String :=
  PullWithTimeout s queue 0 true

/-- Non-blocking send of `msg` to endpoint `i`: append when the buffer has
room, silently drop otherwise (`Publish`'s per-subscriber select). -/
def deliverToEndpoint (eps : List Endpoint) (i : Nat) (msg : Message) :
    List Endpoint :=
  eps.map fun e =>
    if e.id = i then
      if e.buffer.length < subscriberBufferCap then
        { e with buffer := e.buffer ++ [msg] }
      else e
    else e

/-- `Publish`: fail when closed; stamp the timestamp, bump total messages,
then non-blocking fan-out to every subscriber of the topic (no-op when the
topic record is absent). -/
def Publish (s : BrokerState) (topic : String) (msg0 : Message) :
    BrokerState × Option String :=
  if s.closed then (s, some closedErr)
  else
    let msg := { msg0 with timestamp := s.clock }
    let s1 := { s with
      clock := s.clock + 1,
      metrics := { s.metrics with
        totalMessages := s.metrics.totalMessages + 1 } }
    match alook s1.subscribersMap topic with
    | none => (s1, none)
    | some mgr =>
        let eps' :=
          mgr.subscribers.foldl (fun eps i => deliverToEndpoint eps i msg)
            s1.endpoints
        ({ s1 with endpoints := eps' }, none)

/-- `Subscribe`: fail when closed; allocate a fresh capacity-100 endpoint,
get-or-create the topic's manager, append the endpoint, bump active
consumers. Returns the endpoint handle. -/
def Subscribe (s : BrokerState) (topic : String) :
    BrokerState × Option Nat × Option String :=
  if s.closed then (s, none, some closedErr)
  else
    let epId := s.nextEndpointId
    let ep : Endpoint := { id := epId, buffer := [], closeCount := 0 }
    let s1 := { s with
      endpoints := s.endpoints ++ [ep],
      nextEndpointId := epId + 1 }
    let mgr := (alook s1.subscribersMap topic).getD
      { topic := topic, subscribers := [] }
    let mgr' := { mgr with subscribers := mgr.subscribers ++ [epId] }
    ({ s1 with
        subscribersMap := aset s1.subscribersMap topic mgr',
        metrics := { s1.metrics with
          activeConsumers := s1.metrics.activeConsumers + 1 } },
     some epId, none)

/-- Remove the first occurrence of `target` from the subscriber list,
reporting whether it was found (the `Unsubscribe` loop with `break`). -/
def removeFirstSub : List Nat → Nat → List Nat × Bool
  | [], _ => ([], false)
  | x :: rest, target =>
      if x = target then (rest, true)
      else
        let r := removeFirstSub rest target
        (x :: r.1, r.2)

/-- Go's `close(ch)` on the endpoint with handle `i`. -/
def closeEndpoint (eps : List Endpoint) (i : Nat) : List Endpoint :=
  eps.map fun e => if e.id = i then { e with closeCount := e.closeCount + 1 } else e

/-- `Unsubscribe`: *no closed-flag check in the Go code.* Unknown topic is
an error; a known topic with the endpoint present removes it, closes it and
decrements active consumers; a known topic without the endpoint is a no-op
returning nil. -/
def Unsubscribe (s : BrokerState) (topic : String) (sub : Nat) :
    BrokerState × Option String :=
  match alook s.subscribersMap topic with
  | none => (s, some (unknownTopicErr topic))
  | some mgr =>
    let r := removeFirstSub mgr.subscribers sub
    if r.2 then
      ({ s with
          subscribersMap := aset s.subscribersMap topic
            { mgr with subscribers := r.1 },
          endpoints := closeEndpoint s.endpoints sub,
          metrics := { s.metrics with
            activeConsumers := s.metrics.activeConsumers - 1 } },
       none)
    else (s, none)

/-- `GetDLQ`: the per-queue dead-letter slice, empty when absent. -/
def GetDLQ (s : BrokerState) (queue : String) : List Message :=
  (alook s.deadLetters queue).getD []

/-- The `ReprocessDLQ` scan loop: find the first entry with the given ID,
return it with attempts reset to 0 together with the slice with that entry
removed. -/
def dlqScan : List Message → String → Option (Message × List Message)
  | [], _ => none
  | m :: rest, msgID =>
      if m.id = msgID then some ({ m with attempts := 0 }, rest)
      else
        match dlqScan rest msgID with
        | none => none
        | some fr => some (fr.1, m :: fr.2)

/-- `ReprocessDLQ`: *no closed-flag check of its own.* NoDLQ when the queue
never had a dead-letter slice; NotFound when no entry carries the ID;
otherwise remove the first hit, reset its attempts, store the shrunk slice
and return whatever `Push` returns on re-admission. -/
def ReprocessDLQ (s : BrokerState) (queue : String) (msgID : String) :
    BrokerState × Option String :=
  match alook s.deadLetters queue with
  | none => (s, some (noDLQErr queue))
  | some dlq =>
    match dlqScan dlq msgID with
    | none => (s, some (notFoundErr msgID))
    | some fr =>
      Push { s with deadLetters := aset s.deadLetters queue fr.2 } queue fr.1

/-- `GetQueueStats`: *no closed-flag check.* A value copy of the stats, or
UnknownQueue. -/
def GetQueueStats (s : BrokerState) (queue : String) :
    Option QueueStats × Option String :=
  match alook s.queues queue with
  | none => (none, some (unknownQueueErr queue))
  | some mq => (some mq.stats, none)

/-- `PurgeQueue`: *no closed-flag check.* UnknownQueue when absent;
otherwise drain the whole buffer non-blockingly, decrementing depth once
per drained message. -/
def PurgeQueue (s : BrokerState) (queue : String) :
    BrokerState × Option String :=
  match alook s.queues queue with
  | none => (s, some (unknownQueueErr queue))
  | some mq =>
      let mq' := { mq with
        messages := [],
        stats := { mq.stats with
          messageCount := mq.stats.messageCount - mq.messages.length } }
      ({ s with queues := aset s.queues queue mq' }, none)

/-- `IsHealthy`: the negation of the closed flag. -/
def IsHealthy (s : BrokerState) : Bool := !s.closed

/-- `Close`: compare-and-set open→closed (an already-closed broker gets the
idempotence error), cancel the context, then close every endpoint found in
every topic's subscriber list — without emptying those lists. -/
def Close (s : BrokerState) : BrokerState × Option String :=
  if s.closed then (s, some alreadyClosedErr)
  else
    let allSubs :=
      s.subscribersMap.foldl (fun acc p => acc ++ p.2.subscribers) ([] : List Nat)
    ({ s with closed := true,
              endpoints := allSubs.foldl closeEndpoint s.endpoints },
     none)

/-! ### Observation helpers -/

/-- Current depth counter of a queue (0 when the queue record is absent). -/
def depthOf (s : BrokerState) (q : String) : Int :=
  match alook s.queues q with
  | none => 0
  | some mq => mq.stats.messageCount

/-- Cumulative enqueued counter of a queue (0 when absent). -/
def enqOf (s : BrokerState) (q : String) : Int :=
  match alook s.queues q with
  | none => 0
  | some mq => mq.stats.enqueuedTotal

/-- Cumulative dequeued counter of a queue (0 when absent). -/
def deqOf (s : BrokerState) (q : String) : Int :=
  match alook s.queues q with
  | none => 0
  | some mq => mq.stats.dequeuedTotal

/-- Dead-letter counter of a queue (0 when absent). -/
def dlcOf (s : BrokerState) (q : String) : Int :=
  match alook s.queues q with
  | none => 0
  | some mq => mq.stats.deadLetterCount

/-- The buffer contents of a queue ([] when the record is absent). -/
def bufOf (s : BrokerState) (q : String) : List Message :=
  match alook s.queues q with
  | none => []
  | some mq => mq.messages

/-- How many times Go `close` has run on endpoint `i`. -/
def epCloseCount (s : BrokerState) (i : Nat) : Nat :=
  ((s.endpoints.find? fun e => e.id == i).map Endpoint.closeCount).getD 0

/-! ### Association-list lemmas -/

theorem alook_aset_self {α : Type} (l : List (String × α)) (k : String) (v : α) :
    alook (aset l k v) k = some v := by
  induction l with
  | nil => simp [alook, aset]
  | cons p rest ih =>
      by_cases h : p.1 = k
      · simp [alook, aset, h]
      · simp [alook, aset, h, ih]

theorem alook_aset_ne {α : Type} (l : List (String × α)) (k k' : String) (v : α)
    (h : k' ≠ k) : alook (aset l k v) k' = alook l k' := by
  have hne : ¬ k = k' := fun hh => h hh.symm
  induction l with
  | nil => simp [alook, aset, hne]
  | cons p rest ih =>
      obtain ⟨pk, pv⟩ := p
      by_cases hp : pk = k
      · subst hp
        simp [alook, aset, hne]
      · simp [alook, aset, hp, ih]

theorem alook_aset_isSome {α : Type} (l : List (String × α)) (k k' : String)
    (v w : α) (hk : alook l k = some w) :
    (alook (aset l k v) k').isSome = (alook l k').isSome := by
  by_cases h : k' = k
  · subst h
    simp [alook_aset_self, hk]
  · simp [alook_aset_ne l k k' v h]

/-! ### `dlqScan` lemmas: the scan loop of `ReprocessDLQ` found declaratively -/

theorem dlqScan_eq_none (dlq : List Message) (mid : String)
    (h : ∀ m ∈ dlq, m.id ≠ mid) : dlqScan dlq mid = none := by
  induction dlq with
  | nil => rfl
  | cons m rest ih =>
      have hm : m.id ≠ mid := h m (List.mem_cons_self m rest)
      have ih' := ih fun x hx => h x (List.mem_cons_of_mem m hx)
      simp [dlqScan, hm, ih']

theorem dlqScan_first :
    ∀ (dlq : List Message) (mid : String) (i : Nat) (hi : i < dlq.length),
      (dlq.get ⟨i, hi⟩).id = mid →
      (∀ j (hj : j < i), (dlq.get ⟨j, Nat.lt_trans hj hi⟩).id ≠ mid) →
      dlqScan dlq mid =
        some ({ dlq.get ⟨i, hi⟩ with attempts := 0 },
              dlq.take i ++ dlq.drop (i + 1))
  | [], _, i, hi, _, _ => absurd hi (by simp)
  | m :: rest, mid, i, hi, hhit, hmin => by
      by_cases hm : m.id = mid
      · have hi0 : i = 0 := by
          by_contra h0
          exact hmin 0 (Nat.pos_of_ne_zero h0) hm
        subst hi0
        simp [dlqScan, hm]
      · have hi0 : i ≠ 0 := by
          intro h0
          subst h0
          exact hm hhit
        obtain ⟨i', rfl⟩ := Nat.exists_eq_succ_of_ne_zero hi0
        have hi' : i' < rest.length := Nat.lt_of_succ_lt_succ hi
        have hhit' : (rest.get ⟨i', hi'⟩).id = mid := hhit
        have hmin' : ∀ j (hj : j < i'),
            (rest.get ⟨j, Nat.lt_trans hj hi'⟩).id ≠ mid := by
          intro j hj
          exact hmin (j + 1) (Nat.succ_lt_succ hj)
        have IH := dlqScan_first rest mid i' hi' hhit' hmin'
        simp [dlqScan, hm, IH]

theorem dlqScan_remainder_filter :
    ∀ (dlq : List Message) (mid : String) (fr : Message × List Message),
      dlqScan dlq mid = some fr →
      fr.2.filter (fun m => m.id == mid) =
        (dlq.filter (fun m => m.id == mid)).tail
  | [], _, _, h => by simp [dlqScan] at h
  | m :: rest, mid, fr, h => by
      by_cases hm : m.id = mid
      · simp [dlqScan, hm] at h
        subst h
        simp [List.filter_cons, hm]
      · simp only [dlqScan, if_neg hm] at h
        cases hscan : dlqScan rest mid with
        | none => rw [hscan] at h; exact absurd h (by simp)
        | some fr' =>
            rw [hscan] at h
            simp only [Option.some.injEq] at h
            subst h
            have IH := dlqScan_remainder_filter rest mid fr' hscan
            simp [List.filter_cons, hm, IH]

/-! ### Fixed example inputs used by witnesses and counterexamples -/

def msg0 : Message := NewMessage "m1" [1, 2] "q" 0

def msgA : Message := NewMessage "a" [] "q" 0

def msgB : Message := NewMessage "b" [] "q" 0

/-- State after one push of `msg0` into a fresh broker. -/
def sPush1 : BrokerState := (Push initState "q" msg0).1

/-- State with the queue `"q"` created and drained: it exists and is empty. -/
def sDrained : BrokerState := (Pull sPush1 "q").1

/-- A broker whose queue `"q"` holds a full buffer (1000 messages). -/
def sFull : BrokerState :=
  { initState with queues :=
      [("q", { name := "q", messages := List.replicate 1000 msg0,
               stats := { name := "q", messageCount := 1000, consumerCount := 0,
                          enqueuedTotal := 1000, dequeuedTotal := 0,
                          deadLetterCount := 0 } })] }

/-- Two dead letters (ids "a" and "b") in the DLQ of `"q"`, broker open. -/
def sTwoDL : BrokerState := (MoveToDLQ (MoveToDLQ initState "q" msgA).1 "q" msgB).1

/-- One dead letter (id "m1") in the DLQ of `"q"`, broker closed. -/
def sClosedDL : BrokerState := (Close (MoveToDLQ initState "q" msg0).1).1

/-! ### Operation-effect lemmas -/

/-- `MoveToDLQ` always reports success (the Go function ends in
`return nil` on every path). -/
theorem moveToDLQ_snd (s : BrokerState) (q : String) (m : Message) :
    (MoveToDLQ s q m).2 = none := rfl

/-- Effect of `MoveToDLQ` on every observer the claims mention. -/
theorem moveToDLQ_state (s : BrokerState) (q : String) (m : Message) :
    GetDLQ (MoveToDLQ s q m).1 q =
      GetDLQ s q ++ [{ m with attempts := m.attempts + 1 }] ∧
    bufOf (MoveToDLQ s q m).1 q = bufOf s q ∧
    (MoveToDLQ s q m).1.metrics.failedMessages = s.metrics.failedMessages + 1 ∧
    (MoveToDLQ s q m).1.metrics.totalMessages = s.metrics.totalMessages ∧
    (MoveToDLQ s q m).1.metrics.processedMessages = s.metrics.processedMessages ∧
    (MoveToDLQ s q m).1.metrics.activeQueues = s.metrics.activeQueues ∧
    (MoveToDLQ s q m).1.metrics.activeConsumers = s.metrics.activeConsumers ∧
    enqOf (MoveToDLQ s q m).1 q = enqOf s q ∧
    depthOf (MoveToDLQ s q m).1 q = depthOf s q ∧
    deqOf (MoveToDLQ s q m).1 q = deqOf s q ∧
    dlcOf (MoveToDLQ s q m).1 q =
      dlcOf s q + (if (alook s.queues q).isSome then 1 else 0) := by
  unfold MoveToDLQ GetDLQ bufOf enqOf depthOf deqOf dlcOf
  cases halook : alook s.queues q with
  | none => simp [halook, alook_aset_self]
  | some mq => simp [halook, alook_aset_self]

/-- The state transformation every open `Push` applies before touching the
buffer: the clock tick and the (unconditionally evaluated)
`createMessageQueue` effect on the metrics. -/
def bumpState (s : BrokerState) (q : String) : BrokerState :=
  { s with clock := s.clock + 1,
           metrics := (createMessageQueue s.metrics q).1 }

/-- An open-broker `Push` never returns an error. -/
theorem push_open_no_error (s : BrokerState) (q : String) (m : Message)
    (hc : s.closed = false) : (Push s q m).2 = none := by
  unfold Push
  rw [hc]
  simp only [Bool.false_eq_true, if_false]
  cases halook : alook s.queues q with
  | none =>
      simp only [halook]
      split
      · rfl
      · exact moveToDLQ_snd _ _ _
  | some mq =>
      simp only [halook]
      split
      · rfl
      · exact moveToDLQ_snd _ _ _

/-- On the overflow path (queue exists, buffer full) `Push` is exactly
`MoveToDLQ` of the stamped message from the `bumpState` state. -/
theorem push_overflow_eq (s : BrokerState) (q : String) (m : Message)
    (hc : s.closed = false) (mq : MessageQueue)
    (halook : alook s.queues q = some mq)
    (hfull : ¬ mq.messages.length < queueBufferCap) :
    Push s q m =
      MoveToDLQ (bumpState s q) q { m with queue := q, timestamp := s.clock } := by
  unfold Push bumpState
  rw [hc]
  simp [halook, hfull]

/-- C3: For every message and every open-broker state, push never returns an
error because of capacity: when the queue's buffer is full the message is
diverted to the DLQ (with the attempt counter bumped) while the buffer stays
as it was, and push still reports success; push returns an error exactly
when the broker is closed. -/
theorem push_no_capacity_error (s : BrokerState) (q : String) (m : Message) :
    ((Push s q m).2 ≠ none ↔ s.closed = true) ∧
    (s.closed = true → Push s q m = (s, some closedErr)) ∧
    (s.closed = false → ∀ mq, alook s.queues q = some mq →
      ¬ mq.messages.length < queueBufferCap →
      (Push s q m).2 = none ∧
      GetDLQ (Push s q m).1 q =
        GetDLQ s q ++
          [{ m with queue := q, timestamp := s.clock, attempts := m.attempts + 1 }] ∧
      bufOf (Push s q m).1 q = mq.messages) := by
  by_cases hc : s.closed = true
  · refine ⟨by simp [Push, hc], fun _ => by simp [Push, hc], fun hf => ?_⟩
    rw [hc] at hf
    cases hf
  · have hcf : s.closed = false := by
      revert hc
      cases s.closed <;> simp
    refine ⟨?_, fun h => absurd h hc, ?_⟩
    · rw [push_open_no_error s q m hcf]
      simp [hcf]
    · intro _ mq halook hfull
      have he := push_overflow_eq s q m hcf mq halook hfull
      have hM := moveToDLQ_state (bumpState s q) q
        { m with queue := q, timestamp := s.clock }
      have hdlq : GetDLQ (bumpState s q) q = GetDLQ s q := rfl
      have hbuf : bufOf (bumpState s q) q = bufOf s q := rfl
      refine ⟨push_open_no_error s q m hcf, ?_, ?_⟩
      · rw [he, hM.1, hdlq]
      · rw [he, hM.2.1, hbuf]
        simp [bufOf, halook]

/-- C3 witness: pushing into a full queue of an open broker succeeds and the
message lands in the DLQ with attempts bumped to 1; the buffer is unchanged. -/
theorem push_no_capacity_error_witness :
    sFull.closed = false ∧
    alook sFull.queues "q" = some
      { name := "q", messages := List.replicate 1000 msg0,
        stats := { name := "q", messageCount := 1000, consumerCount := 0,
                   enqueuedTotal := 1000, dequeuedTotal := 0,
                   deadLetterCount := 0 } } ∧
    ¬ (List.replicate 1000 msg0).length < queueBufferCap ∧
    (Push sFull "q" msg0).2 = none ∧
    GetDLQ (Push sFull "q" msg0).1 "q" = [{ msg0 with attempts := 1 }] ∧
    bufOf (Push sFull "q" msg0).1 "q" = List.replicate 1000 msg0 := by
  have hfull : ¬ (List.replicate 1000 (msg0 : Message)).length < queueBufferCap := by
    rw [List.length_replicate]
    decide
  have h := (push_no_capacity_error sFull "q" msg0).2.2 rfl _ rfl hfull
  refine ⟨rfl, rfl, hfull, h.1, ?_, h.2.2⟩
  rw [h.2.1]
  rfl

/-- Effect of the shared receive path of `PullWithTimeout`. -/
theorem deliverMsg_spec (s : BrokerState) (q : String) (mq : MessageQueue)
    (msg : Message) (rest : List Message) (h : alook s.queues q = some mq) :
    depthOf (deliverMsg s q mq msg rest).1 q = mq.stats.messageCount - 1 ∧
    deqOf (deliverMsg s q mq msg rest).1 q = mq.stats.dequeuedTotal + 1 ∧
    (deliverMsg s q mq msg rest).1.metrics.processedMessages =
      s.metrics.processedMessages + 1 ∧
    (∀ q', (alook (deliverMsg s q mq msg rest).1.queues q').isSome =
      (alook s.queues q').isSome) ∧
    bufOf (deliverMsg s q mq msg rest).1 q = rest ∧
    (deliverMsg s q mq msg rest).2.1 = some msg := by
  unfold deliverMsg depthOf deqOf bufOf
  refine ⟨by simp [alook_aset_self], by simp [alook_aset_self], rfl, ?_,
    by simp [alook_aset_self], rfl⟩
  intro q'
  exact alook_aset_isSome s.queues q q' _ mq h

/-- C4: pull and pullWithTimeout return the closed-broker failure when the
broker is closed, the unknown-queue failure when the queue was never created
(and never lazily create a queue record), return `(nil, nil)` in the
non-blocking case on an existing empty queue, and on any successful pull
decrement the depth counter by one, increment the dequeued total by one and
increment the global processed counter by one. -/
theorem pull_spec (s : BrokerState) (q : String) (d : Int) (sel : Bool) :
    (Pull s q = PullWithTimeout s q 0 true) ∧
    (s.closed = true → PullWithTimeout s q d sel = (s, none, some closedErr)) ∧
    (s.closed = false → alook s.queues q = none →
      PullWithTimeout s q d sel = (s, none, some (unknownQueueErr q))) ∧
    (s.closed = false → ∀ mq, alook s.queues q = some mq → mq.messages = [] →
      PullWithTimeout s q 0 sel = (s, none, none)) ∧
    (∀ q', (alook (PullWithTimeout s q d sel).1.queues q').isSome =
      (alook s.queues q').isSome) ∧
    (∀ m, (PullWithTimeout s q d sel).2.1 = some m →
      depthOf (PullWithTimeout s q d sel).1 q = depthOf s q - 1 ∧
      deqOf (PullWithTimeout s q d sel).1 q = deqOf s q + 1 ∧
      (PullWithTimeout s q d sel).1.metrics.processedMessages =
        s.metrics.processedMessages + 1) := by
  by_cases hc : s.closed = true
  · refine ⟨rfl, fun _ => by simp [PullWithTimeout, hc], ?_, ?_,
      by simp [PullWithTimeout, hc], by simp [PullWithTimeout, hc]⟩
    · intro hf
      rw [hc] at hf
      cases hf
    · intro hf
      rw [hc] at hf
      cases hf
  · have hcf : s.closed = false := by
      revert hc
      cases s.closed <;> simp
    refine ⟨rfl, fun h => absurd h hc, ?_, ?_, ?_, ?_⟩
    · intro _ halook
      simp [PullWithTimeout, hcf, halook]
    · intro _ mq halook hempty
      simp [PullWithTimeout, hcf, halook, hempty]
    · intro q'
      unfold PullWithTimeout
      rw [hcf]
      cases halook : alook s.queues q with
      | none => simp
      | some mq =>
          cases hmsg : mq.messages with
          | nil =>
              simp only [Bool.false_eq_true, if_false, halook]
              split <;> simp [hmsg]
          | cons msg rest =>
              simp only [Bool.false_eq_true, if_false, halook, hmsg]
              have hd := (deliverMsg_spec s q mq msg rest halook).2.2.2.1 q'
              split
              · exact hd
              · split
                · exact hd
                · split
                  · exact hd
                  · simp
    · intro m
      unfold PullWithTimeout
      rw [hcf]
      cases halook : alook s.queues q with
      | none => simp
      | some mq =>
          have hdep : depthOf s q = mq.stats.messageCount := by
            simp [depthOf, halook]
          have hdeq : deqOf s q = mq.stats.dequeuedTotal := by
            simp [deqOf, halook]
          cases hmsg : mq.messages with
          | nil =>
              simp only [Bool.false_eq_true, if_false, halook]
              split <;> simp [hmsg]
          | cons msg rest =>
              have hD := deliverMsg_spec s q mq msg rest halook
              simp only [Bool.false_eq_true, if_false, halook, hmsg]
              split
              · intro _
                rw [hdep, hdeq]
                exact ⟨hD.1, hD.2.1, hD.2.2.1⟩
              · split
                · intro _
                  rw [hdep, hdeq]
                  exact ⟨hD.1, hD.2.1, hD.2.2.1⟩
                · split
                  · intro _
                    rw [hdep, hdeq]
                    exact ⟨hD.1, hD.2.1, hD.2.2.1⟩
                  · simp

/-- C4 witness: the four cases of `pull_spec` at concrete states — closed
broker, unknown queue, existing empty queue, and a successful pull from a
one-message queue. -/
theorem pull_spec_witness :
    ((Close initState).1.closed = true ∧
      PullWithTimeout (Close initState).1 "q" 5 true =
        ((Close initState).1, none, some closedErr)) ∧
    (alook initState.queues "q" = none ∧
      PullWithTimeout initState "q" 0 true =
        (initState, none, some (unknownQueueErr "q"))) ∧
    PullWithTimeout sDrained "q" 0 false = (sDrained, none, none) ∧
    (depthOf (PullWithTimeout sPush1 "q" 0 true).1 "q" = depthOf sPush1 "q" - 1 ∧
      deqOf (PullWithTimeout sPush1 "q" 0 true).1 "q" = deqOf sPush1 "q" + 1 ∧
      (PullWithTimeout sPush1 "q" 0 true).1.metrics.processedMessages =
        sPush1.metrics.processedMessages + 1) := by
  refine ⟨⟨rfl, (pull_spec (Close initState).1 "q" 5 true).2.1 rfl⟩,
    ⟨rfl, (pull_spec initState "q" 0 true).2.2.1 rfl rfl⟩,
    (pull_spec sDrained "q" 0 false).2.2.2.1 rfl _ rfl rfl,
    (pull_spec sPush1 "q" 0 true).2.2.2.2.2 _ rfl⟩

/-- C5 counterexample: the code treats only `timeout == 0` as non-blocking.
On the existing, empty queue of `sDrained`, a pull with duration −1 (a
non-positive duration) returns a Timeout error, while the non-blocking
pull returns `(nil, nil)` — so `pullWithTimeout(q, d)` for `d < 0` does
not behave as the non-blocking pull, refuting the claim for `d ≤ 0`. -/
theorem negative_timeout_not_nonblocking :
    sDrained.closed = false ∧
    (alook sDrained.queues "q").isSome = true ∧
    bufOf sDrained "q" = [] ∧
    PullWithTimeout sDrained "q" (-1) true =
      (sDrained, none, some (timeoutErr "q")) ∧
    PullWithTimeout sDrained "q" 0 true = (sDrained, none, none) ∧
    ((-1 : Int) ≤ 0 ∧ ¬ (some (timeoutErr "q") : Option String) = none) := by
  exact ⟨rfl, rfl, rfl, rfl, rfl, by decide, by decide⟩

/-- C5 (amended): only duration 0 is treated as non-blocking. For `d = 0`,
`pullWithTimeout` behaves exactly as the non-blocking pull — next pending
message if one is buffered, `(nil, nil)` otherwise, never a Timeout error —
for any value of the select oracle; for `d < 0` the blocking path is taken
with an already-expired deadline, so on an empty buffer it returns a
Timeout error. -/
theorem zero_timeout_nonblocking (s : BrokerState) (q : String) (sel : Bool)
    (mq : MessageQueue) (hc : s.closed = false)
    (hq : alook s.queues q = some mq) :
    (PullWithTimeout s q 0 sel = Pull s q) ∧
    ((PullWithTimeout s q 0 sel).2.2 ≠ some (timeoutErr q)) ∧
    (mq.messages = [] → PullWithTimeout s q 0 sel = (s, none, none)) ∧
    (∀ m rest, mq.messages = m :: rest →
      (PullWithTimeout s q 0 sel).2.1 = some m) ∧
    (∀ d : Int, d < 0 → mq.messages = [] →
      PullWithTimeout s q d sel = (s, none, some (timeoutErr q))) := by
  refine ⟨?_, ?_, ?_, ?_, ?_⟩
  · unfold Pull PullWithTimeout
    rw [hc]
    simp [hq]
  · unfold PullWithTimeout
    rw [hc]
    simp only [Bool.false_eq_true, if_false, hq]
    cases hmsg : mq.messages with
    | nil => simp
    | cons m rest =>
        simp [deliverMsg]
  · intro hempty
    simp [PullWithTimeout, hc, hq, hempty]
  · intro m rest hmsg
    simp [PullWithTimeout, hc, hq, hmsg, deliverMsg]
  · intro d hd hempty
    have hd0 : ¬ d = 0 := by omega
    simp [PullWithTimeout, hc, hq, hempty, hd0]

/-- C5 witness: the amended behaviour at the concrete drained queue and at
the concrete one-message queue. -/
theorem zero_timeout_nonblocking_witness :
    (PullWithTimeout sDrained "q" 0 false = (sDrained, none, none)) ∧
    ((PullWithTimeout sPush1 "q" 0 true).2.1 =
      some { msg0 with queue := "q", timestamp := 0 }) ∧
    (PullWithTimeout sDrained "q" (-1) false =
      (sDrained, none, some (timeoutErr "q"))) := by
  refine ⟨(zero_timeout_nonblocking sDrained "q" false _ rfl rfl).2.2.1 rfl,
    (zero_timeout_nonblocking sPush1 "q" true _ rfl rfl).2.2.2.1
      { msg0 with queue := "q", timestamp := 0 } [] rfl,
    (zero_timeout_nonblocking sDrained "q" false _ rfl rfl).2.2.2.2
      (-1) (by decide) rfl⟩

/-- C2 counterexample: after a successful `close`, `MoveToDLQ` — a public
broker operation — does not return a closed-broker failure: it returns nil
(success), because the Go function never checks the closed flag. -/
theorem moveToDLQ_after_close_succeeds :
    (Close initState).2 = none ∧
    (Close initState).1.closed = true ∧
    (MoveToDLQ (Close initState).1 "q" msg0).2 = none ∧
    ¬ (MoveToDLQ (Close initState).1 "q" msg0).2 = some closedErr := by
  exact ⟨rfl, rfl, rfl, by decide⟩

/-- C2 (amended): after `close` has succeeded, the operations that check the
closed flag — push, pull, pullWithTimeout, publish, subscribe — each return
the closed-broker failure; but unsubscribe, moveToDLQ, reprocessDLQ,
purgeQueue and getQueueStats never consult the flag (moveToDLQ, for one,
plainly succeeds on a closed broker). -/
theorem post_close_refusals (s : BrokerState) (q t : String) (m : Message)
    (d : Int) (sel : Bool) (h : s.closed = true) :
    (Push s q m).2 = some closedErr ∧
    (PullWithTimeout s q d sel).2.2 = some closedErr ∧
    (Pull s q).2.2 = some closedErr ∧
    (Publish s t m).2 = some closedErr ∧
    (Subscribe s t).2.2 = some closedErr ∧
    (MoveToDLQ s q m).2 = none := by
  refine ⟨by simp [Push, h], by simp [PullWithTimeout, h],
    by simp [Pull, PullWithTimeout, h], by simp [Publish, h],
    by simp [Subscribe, h], rfl⟩

/-- C2 witness: the amended refusals at the concretely closed broker. -/
theorem post_close_refusals_witness :
    (Close initState).1.closed = true ∧
    (Push (Close initState).1 "q" msg0).2 = some closedErr ∧
    (Publish (Close initState).1 "t" msg0).2 = some closedErr ∧
    (Subscribe (Close initState).1 "t").2.2 = some closedErr := by
  have h := post_close_refusals (Close initState).1 "q" "t" msg0 7 true rfl
  exact ⟨rfl, h.1, h.2.2.2.1, h.2.2.2.2.1⟩

/-- A hit exists in the dead-letter slice exactly when the scan loop finds
one (existence direction, used to drive `ReprocessDLQ` on a closed broker). -/
theorem dlqScan_isSome :
    ∀ (dlq : List Message) (mid : String), (∃ m ∈ dlq, m.id = mid) →
      ∃ fr, dlqScan dlq mid = some fr
  | [], _, h => absurd h (by simp)
  | m :: rest, mid, h => by
      by_cases hm : m.id = mid
      · exact ⟨({ m with attempts := 0 }, rest), by simp [dlqScan, hm]⟩
      · have hrest : ∃ x ∈ rest, x.id = mid := by
          obtain ⟨x, hx, hid⟩ := h
          cases List.mem_cons.mp hx with
          | inl he => exact absurd hid (he ▸ hm)
          | inr hr => exact ⟨x, hr, hid⟩
        obtain ⟨fr', hfr'⟩ := dlqScan_isSome rest mid hrest
        exact ⟨(fr'.1, m :: fr'.2), by simp [dlqScan, hm, hfr']⟩

/-- C6: `reprocessDLQ` fails with NoDLQ when no DLQ slice was ever created
for the queue; otherwise it locates the first entry whose ID matches,
failing with NotFound when there is none; on a hit it removes exactly that
entry from the DLQ, resets its attempts to 0, re-admits it via `push` on the
same queue and returns push's result. -/
theorem reprocessDLQ_spec (s : BrokerState) (q mid : String) :
    (alook s.deadLetters q = none →
      ReprocessDLQ s q mid = (s, some (noDLQErr q))) ∧
    (∀ dlq, alook s.deadLetters q = some dlq → (∀ m ∈ dlq, m.id ≠ mid) →
      ReprocessDLQ s q mid = (s, some (notFoundErr mid))) ∧
    (∀ dlq, alook s.deadLetters q = some dlq →
      ∀ i (hi : i < dlq.length), (dlq.get ⟨i, hi⟩).id = mid →
      (∀ j (hj : j < i), (dlq.get ⟨j, Nat.lt_trans hj hi⟩).id ≠ mid) →
      ReprocessDLQ s q mid =
        Push { s with deadLetters := aset s.deadLetters q (dlq.take i ++ dlq.drop (i + 1)) } q
          { dlq.get ⟨i, hi⟩ with attempts := 0 }) := by
  refine ⟨?_, ?_, ?_⟩
  · intro h
    simp [ReprocessDLQ, h]
  · intro dlq h hnone
    simp [ReprocessDLQ, h, dlqScan_eq_none dlq mid hnone]
  · intro dlq h i hi hhit hmin
    have hscan := dlqScan_first dlq mid i hi hhit hmin
    simp [ReprocessDLQ, h, hscan]

/-- The dead-letter forms of the fixed example messages (attempts bumped by
their `MoveToDLQ` admission). -/
def dlA : Message := { msgA with attempts := 1 }

def dlB : Message := { msgB with attempts := 1 }

def dl0 : Message := { msg0 with attempts := 1 }

/-- C6 witness: reprocessing id "b" out of the two-entry DLQ of `sTwoDL`
removes exactly the second entry and re-pushes it with attempts reset. -/
theorem reprocessDLQ_spec_witness :
    alook sTwoDL.deadLetters "q" = some [dlA, dlB] ∧
    ReprocessDLQ sTwoDL "q" "b" =
      Push { sTwoDL with deadLetters := aset sTwoDL.deadLetters "q" [dlA] }
        "q" { dlB with attempts := 0 } := by
  have h2 : 1 < ([dlA, dlB] : List Message).length := by decide
  have hmin : ∀ j (hj : j < 1),
      (([dlA, dlB] : List Message).get ⟨j, Nat.lt_trans hj h2⟩).id ≠ "b" := by
    intro j hj
    have hj0 : j = 0 := by omega
    subst hj0
    show dlA.id ≠ "b"
    decide
  have h := (reprocessDLQ_spec sTwoDL "q" "b").2.2 [dlA, dlB] rfl 1 h2 rfl hmin
  exact ⟨rfl, h⟩

/-- C9: on a closed broker, if the DLQ of `q` holds an entry with the given
ID, `reprocessDLQ` still removes that entry before `push` rejects the
re-admission with the closed-broker error: the call fails, the queue buffers
are untouched, and (when the ID was unique) the message is afterwards in
neither the DLQ nor the queue's buffer. -/
theorem reprocessDLQ_closed_drops_message (s : BrokerState) (q mid : String)
    (dlq : List Message) (hc : s.closed = true)
    (hd : alook s.deadLetters q = some dlq)
    (hmem : ∃ m ∈ dlq, m.id = mid) :
    (ReprocessDLQ s q mid).2 = some closedErr ∧
    (ReprocessDLQ s q mid).1.queues = s.queues ∧
    (∀ fr, dlqScan dlq mid = some fr →
      GetDLQ (ReprocessDLQ s q mid).1 q = fr.2) ∧
    ((dlq.filter fun m => m.id == mid).length = 1 →
      ∀ m ∈ GetDLQ (ReprocessDLQ s q mid).1 q, m.id ≠ mid) ∧
    ((∀ m ∈ bufOf s q, m.id ≠ mid) →
      ∀ m ∈ bufOf (ReprocessDLQ s q mid).1 q, m.id ≠ mid) := by
  obtain ⟨fr0, hscan0⟩ := dlqScan_isSome dlq mid hmem
  have hre : ReprocessDLQ s q mid =
      ({ s with deadLetters := aset s.deadLetters q fr0.2 }, some closedErr) := by
    simp [ReprocessDLQ, hd, hscan0, Push, hc]
  have hget : GetDLQ (ReprocessDLQ s q mid).1 q = fr0.2 := by
    rw [hre]
    unfold GetDLQ
    simp [alook_aset_self]
  have hbuf : bufOf (ReprocessDLQ s q mid).1 q = bufOf s q := by
    rw [hre]
    rfl
  refine ⟨by rw [hre], by rw [hre], ?_, ?_, ?_⟩
  · intro fr hfr
    rw [hscan0] at hfr
    cases hfr
    exact hget
  · intro hcount m hm hid
    have htail := dlqScan_remainder_filter dlq mid fr0 hscan0
    obtain ⟨a, ha⟩ := List.length_eq_one.mp hcount
    rw [ha] at htail
    have hnil : fr0.2.filter (fun m => m.id == mid) = [] := by
      rw [htail]
      rfl
    rw [hget] at hm
    have : m ∈ fr0.2.filter (fun m => m.id == mid) :=
      List.mem_filter.mpr ⟨hm, by simp [hid]⟩
    rw [hnil] at this
    cases this
  · intro hnone m hm
    rw [hbuf] at hm
    exact hnone m hm

/-- C9 witness: the closed broker `sClosedDL` holds the single dead letter
`dl0` (id "m1"); reprocessing it fails with the closed-broker error yet
leaves the message in neither the DLQ nor the queue buffer. -/
theorem reprocessDLQ_closed_drops_message_witness :
    sClosedDL.closed = true ∧
    alook sClosedDL.deadLetters "q" = some [dl0] ∧
    (ReprocessDLQ sClosedDL "q" "m1").2 = some closedErr ∧
    GetDLQ (ReprocessDLQ sClosedDL "q" "m1").1 "q" = [] ∧
    bufOf (ReprocessDLQ sClosedDL "q" "m1").1 "q" = [] := by
  have h := reprocessDLQ_closed_drops_message sClosedDL "q" "m1" [dl0]
    rfl rfl ⟨dl0, by simp, rfl⟩
  refine ⟨rfl, rfl, h.1, ?_, ?_⟩
  · have := h.2.2.1 ({ dl0 with attempts := 0 }, []) rfl
    simpa using this
  · have hb := h.2.2.2.2 (by intro m hm; cases hm)
    have : bufOf (ReprocessDLQ sClosedDL "q" "m1").1 "q" = bufOf sClosedDL "q" := by
      unfold bufOf
      rw [h.2.1]
    rw [this]
    rfl

/-- The close-then-unsubscribe scenario: one subscriber on topic "t". -/
def sSub : BrokerState := (Subscribe initState "t").1

def sSubClosed : BrokerState := (Close sSub).1

def sSubClosedUnsub : BrokerState := (Unsubscribe sSubClosed "t" 0).1

/-- C7 (code bug): `Close` closes the endpoint but leaves it in the topic's
subscriber list, and `Unsubscribe` never checks the closed flag, so
unsubscribing after close runs Go's `close` on the same channel a second
time (`closeCount` reaches 2) — in Go this panics with "close of closed
channel", violating the exactly-once property. -/
theorem unsubscribe_after_close_double_close :
    epCloseCount sSub 0 = 0 ∧
    epCloseCount sSubClosed 0 = 1 ∧
    (Unsubscribe sSubClosed "t" 0).2 = none ∧
    epCloseCount sSubClosedUnsub 0 = 2 := by
  exact ⟨rfl, rfl, rfl, rfl⟩

/-! ### Closed form of `n` sequential pushes into one queue of a fresh broker -/

/-- The stamped form of the `i`-th pushed message (`Push` sets the queue
field and the timestamp, which equals the logical clock `i` at that point). -/
def stampMsg (qn : String) (f : Nat → Message) (i : Nat) : Message :=
  { f i with queue := qn, timestamp := i }

/-- Buffer contents after `k` successful admissions. -/
def bufList (qn : String) (f : Nat → Message) : Nat → List Message
  | 0 => []
  | k + 1 => bufList qn f k ++ [stampMsg qn f k]

/-- The dead letter produced by overflow push number `i` (attempts bumped
once by `MoveToDLQ`). -/
def dlMsg (qn : String) (f : Nat → Message) (i : Nat) : Message :=
  { f i with queue := qn, timestamp := i, attempts := (f i).attempts + 1 }

/-- DLQ contents after `k` overflow pushes (pushes number 1000 … 1000+k−1). -/
def dlList (qn : String) (f : Nat → Message) : Nat → List Message
  | 0 => []
  | k + 1 => dlList qn f k ++ [dlMsg qn f (1000 + k)]

theorem bufList_length (qn : String) (f : Nat → Message) :
    ∀ k, (bufList qn f k).length = k
  | 0 => rfl
  | k + 1 => by
      simp [bufList, bufList_length qn f k]

theorem dlList_length (qn : String) (f : Nat → Message) :
    ∀ k, (dlList qn f k).length = k
  | 0 => rfl
  | k + 1 => by
      simp [dlList, dlList_length qn f k]

/-- The broker state after `n` sequential pushes of `f 0, …, f (n−1)` into
queue `qn` of a fresh broker: the first `min n 1000` messages sit in the
buffer, the rest are dead letters, and — because `Push` evaluates
`createMessageQueue` unconditionally — `activeQueues` equals `n`. -/
def mkState (qn : String) (f : Nat → Message) (n : Nat) : BrokerState :=
  if n = 0 then initState
  else
    { queues := [(qn,
        { name := qn, messages := bufList qn f (min n 1000),
          stats := { name := qn, messageCount := ((min n 1000 : Nat) : Int),
                     consumerCount := 0,
                     enqueuedTotal := ((min n 1000 : Nat) : Int),
                     dequeuedTotal := 0,
                     deadLetterCount := ((n - 1000 : Nat) : Int) } })],
      subscribersMap := [],
      deadLetters := if n ≤ 1000 then [] else [(qn, dlList qn f (n - 1000))],
      metrics := { totalMessages := ((min n 1000 : Nat) : Int),
                   processedMessages := 0,
                   failedMessages := ((n - 1000 : Nat) : Int),
                   activeQueues := (n : Int), activeConsumers := 0,
                   startTime := 0, queueMetricsNames := [qn] },
      closed := false, endpoints := [], nextEndpointId := 0, clock := n }

/-- Explicit form of `MoveToDLQ` when the queue record exists. -/
theorem moveToDLQ_exists_eq (s : BrokerState) (q : String) (m : Message)
    (mq : MessageQueue) (halook : alook s.queues q = some mq) :
    MoveToDLQ s q m =
      ({ s with
          deadLetters := aset s.deadLetters q
            ((alook s.deadLetters q).getD [] ++
              [{ m with attempts := m.attempts + 1 }]),
          queues := aset s.queues q
            { mq with stats := { mq.stats with
                deadLetterCount := mq.stats.deadLetterCount + 1 } },
          metrics := { s.metrics with
            failedMessages := s.metrics.failedMessages + 1 } }, none) := by
  unfold MoveToDLQ
  simp [halook]

/-- Explicit form of an open `Push` into an existing queue with room. -/
theorem push_exists_fit (s : BrokerState) (q : String) (m : Message)
    (mq : MessageQueue) (hc : s.closed = false)
    (halook : alook s.queues q = some mq)
    (hfit : mq.messages.length < queueBufferCap) :
    Push s q m =
      ({ s with
          clock := s.clock + 1,
          queues := aset s.queues q
            { mq with
                messages := mq.messages ++
                  [{ m with queue := q, timestamp := s.clock }],
                stats := { mq.stats with
                  messageCount := mq.stats.messageCount + 1,
                  enqueuedTotal := mq.stats.enqueuedTotal + 1 } },
          metrics := { (createMessageQueue s.metrics q).1 with
            totalMessages :=
              (createMessageQueue s.metrics q).1.totalMessages + 1 } }, none) := by
  unfold Push
  rw [hc]
  simp [halook, hfit]

/-- Explicit form of an open `Push` that creates the queue. -/
theorem push_absent (s : BrokerState) (q : String) (m : Message)
    (hc : s.closed = false) (halook : alook s.queues q = none) :
    Push s q m =
      ({ s with
          clock := s.clock + 1,
          queues := aset (aset s.queues q (createMessageQueue s.metrics q).2) q
            { (createMessageQueue s.metrics q).2 with
                messages := [{ m with queue := q, timestamp := s.clock }],
                stats := { (createMessageQueue s.metrics q).2.stats with
                  messageCount :=
                    (createMessageQueue s.metrics q).2.stats.messageCount + 1,
                  enqueuedTotal :=
                    (createMessageQueue s.metrics q).2.stats.enqueuedTotal + 1 } },
          metrics := { (createMessageQueue s.metrics q).1 with
            totalMessages :=
              (createMessageQueue s.metrics q).1.totalMessages + 1 } }, none) := by
  unfold Push
  rw [hc]
  simp [halook, queueBufferCap, createMessageQueue]

/-- The queue record of the closed form (for `n ≥ 1`). -/
def mkQueue (qn : String) (f : Nat → Message) (n : Nat) : MessageQueue :=
  { name := qn, messages := bufList qn f (min n 1000),
    stats := { name := qn, messageCount := ((min n 1000 : Nat) : Int),
               consumerCount := 0,
               enqueuedTotal := ((min n 1000 : Nat) : Int),
               dequeuedTotal := 0,
               deadLetterCount := ((n - 1000 : Nat) : Int) } }

theorem aset_cons_self {α : Type} (k : String) (v w : α)
    (rest : List (String × α)) :
    aset ((k, v) :: rest) k w = (k, w) :: rest := by
  simp [aset]

theorem alook_cons_self {α : Type} (k : String) (v : α)
    (rest : List (String × α)) :
    alook ((k, v) :: rest) k = some v := by
  simp [alook]

theorem insertName_self (k : String) : insertName [k] k = [k] := by
  simp [insertName]

theorem mkState_queues (qn : String) (f : Nat → Message) (n : Nat)
    (hne : n ≠ 0) : (mkState qn f n).queues = [(qn, mkQueue qn f n)] := by
  simp [mkState, hne, mkQueue]

theorem mkState_alook (qn : String) (f : Nat → Message) (n : Nat)
    (hne : n ≠ 0) : alook (mkState qn f n).queues qn = some (mkQueue qn f n) := by
  rw [mkState_queues qn f n hne]
  exact alook_cons_self qn _ []

/-- One more push moves the closed form forward by one. -/
theorem push_mkState (qn : String) (f : Nat → Message) (n : Nat) :
    Push (mkState qn f n) qn (f n) = (mkState qn f (n + 1), none) := by
  rcases Nat.eq_zero_or_pos n with hn0 | hnpos
  · subst hn0
    show Push initState qn (f 0) = (mkState qn f 1, none)
    rw [push_absent initState qn (f 0) rfl rfl]
    simp only [mkState, if_neg (Nat.succ_ne_zero 0)]
    simp [initState, NewMetrics, createMessageQueue, insertName, aset,
      bufList, stampMsg, mkQueue]
  · have hne : n ≠ 0 := Nat.pos_iff_ne_zero.mp hnpos
    have halook := mkState_alook qn f n hne
    have hclosed : (mkState qn f n).closed = false := by
      simp [mkState, hne]
    by_cases hlt : n < 1000
    · have hmin : min n 1000 = n := by omega
      have hfit : (mkQueue qn f n).messages.length < queueBufferCap := by
        simp only [mkQueue, bufList_length, hmin]
        simpa [queueBufferCap] using hlt
      rw [push_exists_fit (mkState qn f n) qn (f n) (mkQueue qn f n)
        hclosed halook hfit]
      have e2 : min (n + 1) 1000 = n + 1 := by omega
      have e5 : n ≤ 1000 := by omega
      have e6 : n + 1 ≤ 1000 := by omega
      simp only [Prod.mk.injEq, and_true]
      simp only [mkState, if_neg hne, if_neg (Nat.succ_ne_zero n),
        mkQueue, createMessageQueue, aset_cons_self, insertName_self,
        hmin, e2, if_pos e5, if_pos e6,
        BrokerState.mk.injEq, MessageQueue.mk.injEq, QueueStats.mk.injEq,
        Metrics.mk.injEq, List.cons.injEq, Prod.mk.injEq]
      constructorm* _ ∧ _ <;>
        first
          | omega
          | exact True.intro
          | rfl
    · have hmin : min n 1000 = 1000 := by omega
      have hfull : ¬ (mkQueue qn f n).messages.length < queueBufferCap := by
        simp only [mkQueue, bufList_length, hmin]
        decide
      rw [push_overflow_eq (mkState qn f n) qn (f n) hclosed
        (mkQueue qn f n) halook hfull]
      have halookB : alook (bumpState (mkState qn f n) qn).queues qn =
          some (mkQueue qn f n) := halook
      rw [moveToDLQ_exists_eq (bumpState (mkState qn f n) qn) qn
        { f n with queue := qn,
                   timestamp := (mkState qn f n).clock }
        (mkQueue qn f n) halookB]
      have e2 : min (n + 1) 1000 = 1000 := by omega
      have e4 : n + 1 - 1000 = (n - 1000) + 1 := by omega
      have e7 : ¬ n + 1 ≤ 1000 := by omega
      have hd2 : 1000 + (n - 1000) = n := by omega
      simp only [Prod.mk.injEq, and_true]
      unfold bumpState
      by_cases e5 : n ≤ 1000
      · have h1000 : n = 1000 := by omega
        subst h1000
        simp only [mkState, if_neg hne, if_neg (Nat.succ_ne_zero 1000),
          mkQueue, createMessageQueue, aset_cons_self, insertName_self,
          hmin, e2, e4, if_pos e5, if_neg e7,
          BrokerState.mk.injEq, MessageQueue.mk.injEq, QueueStats.mk.injEq,
          Metrics.mk.injEq, List.cons.injEq, Prod.mk.injEq]
        constructorm* _ ∧ _ <;>
          first
            | omega
            | exact True.intro
            | rfl
      · simp only [mkState, if_neg hne, if_neg (Nat.succ_ne_zero n),
          mkQueue, createMessageQueue, aset_cons_self, alook_cons_self,
          insertName_self, hmin, e2, e4, if_neg e5, if_neg e7,
          Option.getD_some, dlList, hd2,
          BrokerState.mk.injEq, MessageQueue.mk.injEq, QueueStats.mk.injEq,
          Metrics.mk.injEq, List.cons.injEq, Prod.mk.injEq]
        constructorm* _ ∧ _ <;>
          first
            | omega
            | exact True.intro
            | rfl

/-! ### Sequential schedules of push / pull / purge with ghost counters -/

/-- Whether the next push on `q` would overflow (open broker, existing
queue, full buffer). -/
def isOverflow (s : BrokerState) (q : String) : Bool :=
  !s.closed &&
    (match alook s.queues q with
     | some mq => decide (queueBufferCap ≤ mq.messages.length)
     | none => false)

/-- Ghost counters accompanying a schedule: per-queue number of messages
discarded by purge, and per-queue number of messages diverted to the DLQ by
push overflow. -/
structure Ghost where
  purged : List (String × Nat)
  overflowed : List (String × Nat)
deriving DecidableEq

def ghost0 : Ghost := ⟨[], []⟩

def gcount (l : List (String × Nat)) (q : String) : Nat := (alook l q).getD 0

def gbump (l : List (String × Nat)) (q : String) (k : Nat) :
    List (String × Nat) :=
  aset l q (gcount l q + k)

/-- One schedule step: push, non-blocking pull, or purge. -/
inductive Op where
  | push : String → Message → Op
  | pull : String → Op
  | purge : String → Op

/-- Ghost-instrumented step: run the Go operation, update the ghost
counters. -/
def runOp (sg : BrokerState × Ghost) : Op → BrokerState × Ghost
  | Op.push q m =>
      ((Push sg.1 q m).1,
       if isOverflow sg.1 q then
         { sg.2 with overflowed := gbump sg.2.overflowed q 1 }
       else sg.2)
  | Op.pull q => ((Pull sg.1 q).1, sg.2)
  | Op.purge q =>
      ((PurgeQueue sg.1 q).1,
       { sg.2 with purged := gbump sg.2.purged q (bufOf sg.1 q).length })

def runOps : BrokerState × Ghost → List Op → BrokerState × Ghost
  | sg, [] => sg
  | sg, op :: rest => runOps (runOp sg op) rest

theorem runOps_append (l1 l2 : List Op) (sg : BrokerState × Ghost) :
    runOps sg (l1 ++ l2) = runOps (runOps sg l1) l2 := by
  induction l1 generalizing sg with
  | nil => rfl
  | cons op rest ih =>
      show runOps (runOp sg op) (rest ++ l2) = _
      rw [ih]
      rfl

/-- The schedule of `n` pushes of `f 0, …, f (n−1)` into `qn`. -/
def pushSchedN (qn : String) (f : Nat → Message) : Nat → List Op
  | 0 => []
  | n + 1 => pushSchedN qn f n ++ [Op.push qn (f n)]

/-- Ghost values after `n` pushes: nothing purged, `n − 1000` overflows. -/
def mkGhost (qn : String) (n : Nat) : Ghost :=
  ⟨[], if n ≤ 1000 then [] else [(qn, n - 1000)]⟩

theorem mkState_closed (qn : String) (f : Nat → Message) (n : Nat) :
    (mkState qn f n).closed = false := by
  rcases Nat.eq_zero_or_pos n with h0 | hp
  · subst h0
    rfl
  · simp [mkState, Nat.pos_iff_ne_zero.mp hp]

theorem isOverflow_mkState (qn : String) (f : Nat → Message) (n : Nat) :
    isOverflow (mkState qn f n) qn = decide (1000 ≤ n) := by
  rcases Nat.eq_zero_or_pos n with h0 | hp
  · subst h0
    rfl
  · have hne := Nat.pos_iff_ne_zero.mp hp
    unfold isOverflow
    rw [mkState_closed, mkState_alook qn f n hne]
    have hiff : (queueBufferCap ≤ (mkQueue qn f n).messages.length) ↔
        (1000 ≤ n) := by
      simp only [mkQueue, bufList_length, queueBufferCap]
      omega
    simp [decide_eq_decide.mpr hiff]

theorem mkGhost_step_over (qn : String) (n : Nat) (h : 1000 ≤ n) :
    { mkGhost qn n with
        overflowed := gbump (mkGhost qn n).overflowed qn 1 } =
      mkGhost qn (n + 1) := by
  unfold mkGhost gbump gcount
  have h7 : ¬ n + 1 ≤ 1000 := by omega
  by_cases he : n ≤ 1000
  · have h1 : n = 1000 := by omega
    subst h1
    simp [aset, alook]
  · simp only [if_neg he, if_neg h7, alook_cons_self, Option.getD_some,
      aset_cons_self, Ghost.mk.injEq, List.cons.injEq, Prod.mk.injEq,
      and_true, true_and]
    omega

theorem mkGhost_step_fit (qn : String) (n : Nat) (h : n < 1000) :
    mkGhost qn n = mkGhost qn (n + 1) := by
  unfold mkGhost
  have h5 : n ≤ 1000 := by omega
  have h6 : n + 1 ≤ 1000 := by omega
  rw [if_pos h5, if_pos h6]

/-- Closed form of the fresh-broker run of `n` pushes, state and ghost. -/
theorem runOps_pushSchedN (qn : String) (f : Nat → Message) (n : Nat) :
    runOps (initState, ghost0) (pushSchedN qn f n) =
      (mkState qn f n, mkGhost qn n) := by
  induction n with
  | zero => rfl
  | succ n ih =>
      rw [pushSchedN, runOps_append, ih]
      show runOp (mkState qn f n, mkGhost qn n) (Op.push qn (f n)) =
        (mkState qn f (n + 1), mkGhost qn (n + 1))
      simp only [runOp]
      rw [push_mkState, isOverflow_mkState]
      by_cases h : 1000 ≤ n
      · rw [decide_eq_true h]
        simp only [if_true]
        rw [mkGhost_step_over qn n h]
      · have hd : decide (1000 ≤ n) = false := by
          simp [h]
        rw [hd]
        simp only [Bool.false_eq_true, if_false]
        rw [mkGhost_step_fit qn n (by omega)]

/-! ### Projections of the closed form -/

theorem depthOf_mkState (qn : String) (f : Nat → Message) (n : Nat)
    (hne : n ≠ 0) :
    depthOf (mkState qn f n) qn = ((min n 1000 : Nat) : Int) := by
  simp [depthOf, mkState_alook qn f n hne, mkQueue]

theorem enqOf_mkState (qn : String) (f : Nat → Message) (n : Nat)
    (hne : n ≠ 0) :
    enqOf (mkState qn f n) qn = ((min n 1000 : Nat) : Int) := by
  simp [enqOf, mkState_alook qn f n hne, mkQueue]

theorem deqOf_mkState (qn : String) (f : Nat → Message) (n : Nat)
    (hne : n ≠ 0) : deqOf (mkState qn f n) qn = 0 := by
  simp [deqOf, mkState_alook qn f n hne, mkQueue]

theorem bufOf_mkState (qn : String) (f : Nat → Message) (n : Nat)
    (hne : n ≠ 0) :
    bufOf (mkState qn f n) qn = bufList qn f (min n 1000) := by
  simp [bufOf, mkState_alook qn f n hne, mkQueue]

theorem getDLQ_mkState (qn : String) (f : Nat → Message) (n : Nat) :
    GetDLQ (mkState qn f n) qn =
      if n ≤ 1000 then [] else dlList qn f (n - 1000) := by
  rcases Nat.eq_zero_or_pos n with h0 | hp
  · subst h0
    rfl
  · have hne := Nat.pos_iff_ne_zero.mp hp
    unfold GetDLQ
    simp only [mkState, if_neg hne]
    by_cases he : n ≤ 1000
    · simp [he, alook]
    · simp [he, alook_cons_self]

/-- The messages used in the concrete overflow runs: distinct decimal ids. -/
def msgI (i : Nat) : Message := NewMessage (Nat.repr i) [] "q" 0

/-- C1 counterexample: pushing 1025 distinct messages into a fresh queue
leaves depth 1000 — not 1024 — and 25 messages in the DLQ — not just the
1025th: the buffer capacity in the code is 1000
(`make(chan Message, 1000)`), not 1024. -/
theorem overflow_at_1025_counterexample :
    depthOf (runOps (initState, ghost0) (pushSchedN "q" msgI 1025)).1 "q" =
      1000 ∧
    (1000 : Int) ≠ 1024 ∧
    (GetDLQ (runOps (initState, ghost0) (pushSchedN "q" msgI 1025)).1
      "q").length = 25 ∧
    (25 : Nat) ≠ 1 := by
  rw [runOps_pushSchedN]
  show depthOf (mkState "q" msgI 1025) "q" = 1000 ∧ (1000 : Int) ≠ 1024 ∧
    (GetDLQ (mkState "q" msgI 1025) "q").length = 25 ∧ (25 : Nat) ≠ 1
  refine ⟨?_, by decide, ?_, by decide⟩
  · rw [depthOf_mkState "q" msgI 1025 (by decide)]
    decide
  · rw [getDLQ_mkState, if_neg (by decide), dlList_length]

/-- C1 (amended): every queue's bounded buffer has capacity 1000: pushing
1001 distinct fresh messages (attempts 0) with no intervening pull leaves
exactly 1000 messages in the buffer (depth 1000) and diverts exactly the
1001st message to that queue's DLQ with attempts == 1. -/
theorem queue_capacity_1000_overflow (qn : String) (f : Nat → Message)
    (hfresh : (f 1000).attempts = 0) :
    depthOf (runOps (initState, ghost0) (pushSchedN qn f 1001)).1 qn = 1000 ∧
    (bufOf (runOps (initState, ghost0) (pushSchedN qn f 1001)).1 qn).length =
      1000 ∧
    GetDLQ (runOps (initState, ghost0) (pushSchedN qn f 1001)).1 qn =
      [{ f 1000 with queue := qn, timestamp := 1000, attempts := 1 }] := by
  rw [runOps_pushSchedN]
  show depthOf (mkState qn f 1001) qn = 1000 ∧
    (bufOf (mkState qn f 1001) qn).length = 1000 ∧
    GetDLQ (mkState qn f 1001) qn =
      [{ f 1000 with queue := qn, timestamp := 1000, attempts := 1 }]
  refine ⟨?_, ?_, ?_⟩
  · rw [depthOf_mkState qn f 1001 (by decide)]
    decide
  · rw [bufOf_mkState qn f 1001 (by decide), bufList_length]
    decide
  · rw [getDLQ_mkState, if_neg (by decide)]
    show dlList qn f 1 = _
    simp [dlList, dlMsg, hfresh]

/-- C1 witness: the amended overflow boundary at the concrete distinct
messages `msgI 0 … msgI 1000`. -/
theorem queue_capacity_1000_overflow_witness :
    (msgI 1000).attempts = 0 ∧
    depthOf (runOps (initState, ghost0) (pushSchedN "q" msgI 1001)).1 "q" =
      1000 ∧
    GetDLQ (runOps (initState, ghost0) (pushSchedN "q" msgI 1001)).1 "q" =
      [{ msgI 1000 with queue := "q", timestamp := 1000, attempts := 1 }] := by
  have h := queue_capacity_1000_overflow "q" msgI rfl
  exact ⟨rfl, h.1, h.2.2⟩

/-- C10 counterexample: an overflow push does not increment only the global
failed counter and the queue's dead-letter counter — it also increments the
global active-queues counter, because `Push` evaluates `createMessageQueue`
as the unconditional `LoadOrStore` argument on every call. -/
theorem overflow_push_increments_activeQueues :
    (bufOf (mkState "q" msgI 1000) "q").length = 1000 ∧
    (Push (mkState "q" msgI 1000) "q" (msgI 1000)).2 = none ∧
    (Push (mkState "q" msgI 1000) "q" (msgI 1000)).1.metrics.failedMessages =
      (mkState "q" msgI 1000).metrics.failedMessages + 1 ∧
    (mkState "q" msgI 1000).metrics.activeQueues = 1000 ∧
    (Push (mkState "q" msgI 1000) "q" (msgI 1000)).1.metrics.activeQueues =
      1001 := by
  rw [push_mkState]
  refine ⟨?_, rfl, rfl, rfl, rfl⟩
  rw [bufOf_mkState "q" msgI 1000 (by decide), bufList_length]
  decide

/-- C10 (amended): an overflow push increments the global failed-messages
counter, the queue's dead-letter counter, and — through the unconditionally
evaluated `createMessageQueue` argument — the global active-queues counter;
it leaves the global total-messages counter, the queue's enqueued and
dequeued totals, the depth, and the processed counter unchanged, so
total-messages counts only messages that entered a queue buffer (plus
publishes), never DLQ admissions. -/
theorem overflow_push_counter_effects (s : BrokerState) (q : String)
    (m : Message) (hc : s.closed = false) (mq : MessageQueue)
    (halook : alook s.queues q = some mq)
    (hfull : ¬ mq.messages.length < queueBufferCap) :
    (Push s q m).1.metrics.totalMessages = s.metrics.totalMessages ∧
    enqOf (Push s q m).1 q = enqOf s q ∧
    (Push s q m).1.metrics.failedMessages = s.metrics.failedMessages + 1 ∧
    dlcOf (Push s q m).1 q = dlcOf s q + 1 ∧
    (Push s q m).1.metrics.activeQueues = s.metrics.activeQueues + 1 ∧
    (Push s q m).1.metrics.processedMessages = s.metrics.processedMessages ∧
    deqOf (Push s q m).1 q = deqOf s q ∧
    depthOf (Push s q m).1 q = depthOf s q := by
  have he := push_overflow_eq s q m hc mq halook hfull
  obtain ⟨hg, hb, hf, ht, hp, ha, hac, henq, hdep, hdeq, hdlc⟩ :=
    moveToDLQ_state (bumpState s q) q { m with queue := q, timestamp := s.clock }
  have halookB : alook (bumpState s q).queues q = some mq := halook
  refine ⟨?_, ?_, ?_, ?_, ?_, ?_, ?_, ?_⟩
  · rw [he, ht]
    rfl
  · rw [he, henq]
    rfl
  · rw [he, hf]
    rfl
  · rw [he, hdlc, halookB]
    rfl
  · rw [he, ha]
    rfl
  · rw [he, hp]
    rfl
  · rw [he, hdeq]
    rfl
  · rw [he, hdep]
    rfl

/-- C10 witness: the amended counter effects at the concrete full queue
`sFull` (all metrics initially zero). -/
theorem overflow_push_counter_effects_witness :
    sFull.closed = false ∧
    (Push sFull "q" msg0).1.metrics.totalMessages = 0 ∧
    (Push sFull "q" msg0).1.metrics.failedMessages = 1 ∧
    (Push sFull "q" msg0).1.metrics.activeQueues = 1 ∧
    enqOf (Push sFull "q" msg0).1 "q" = 1000 ∧
    dlcOf (Push sFull "q" msg0).1 "q" = 1 := by
  have hfull : ¬ (List.replicate 1000 (msg0 : Message)).length < queueBufferCap := by
    rw [List.length_replicate]
    decide
  have h := overflow_push_counter_effects sFull "q" msg0 rfl _ rfl hfull
  refine ⟨rfl, ?_, ?_, ?_, ?_, ?_⟩
  · rw [h.1]
    rfl
  · rw [h.2.2.1]
    rfl
  · rw [h.2.2.2.2.1]
    rfl
  · rw [h.2.1]
    rfl
  · rw [h.2.2.2.1]
    rfl

/-! ### The per-queue conservation invariant over schedules -/

theorem aset_aset {α : Type} (l : List (String × α)) (k : String) (v w : α) :
    aset (aset l k v) k w = aset l k w := by
  induction l with
  | nil => simp [aset]
  | cons p rest ih =>
      obtain ⟨pk, pv⟩ := p
      by_cases hp : pk = k
      · subst hp
        simp [aset]
      · simp [aset, hp, ih]

theorem gcount_gbump (l : List (String × Nat)) (q0 : String) (k : Nat)
    (q : String) :
    gcount (gbump l q0 k) q = gcount l q + (if q = q0 then k else 0) := by
  unfold gbump gcount
  by_cases hq : q = q0
  · subst hq
    rw [alook_aset_self]
    simp
  · rw [alook_aset_ne l q0 q _ hq]
    simp [hq]

/-- The per-queue observers of a state whose queue map is an `aset` of
another state's. -/
theorem observers_aset (s s' : BrokerState) (q0 : String) (v : MessageQueue)
    (hq : s'.queues = aset s.queues q0 v) :
    (∀ q, q ≠ q0 →
      enqOf s' q = enqOf s q ∧ deqOf s' q = deqOf s q ∧
      depthOf s' q = depthOf s q) ∧
    (enqOf s' q0 = v.stats.enqueuedTotal ∧
     deqOf s' q0 = v.stats.dequeuedTotal ∧
     depthOf s' q0 = v.stats.messageCount) := by
  constructor
  · intro q hne
    unfold enqOf deqOf depthOf
    rw [hq, alook_aset_ne s.queues q0 q v hne]
    exact ⟨rfl, rfl, rfl⟩
  · unfold enqOf deqOf depthOf
    rw [hq, alook_aset_self]
    exact ⟨rfl, rfl, rfl⟩

/-- Case analysis of `Push`'s effect on the state. -/
theorem push_state_cases (s : BrokerState) (q0 : String) (m : Message) :
    (s.closed = true ∧ (Push s q0 m).1 = s) ∨
    (s.closed = false ∧ ∃ mq, alook s.queues q0 = some mq ∧
      mq.messages.length < queueBufferCap ∧
      (Push s q0 m).1.queues = aset s.queues q0
        { mq with
            messages := mq.messages ++
              [{ m with queue := q0, timestamp := s.clock }],
            stats := { mq.stats with
              messageCount := mq.stats.messageCount + 1,
              enqueuedTotal := mq.stats.enqueuedTotal + 1 } }) ∨
    (s.closed = false ∧ ∃ mq, alook s.queues q0 = some mq ∧
      ¬ mq.messages.length < queueBufferCap ∧
      (Push s q0 m).1.queues = aset s.queues q0
        { mq with stats := { mq.stats with
            deadLetterCount := mq.stats.deadLetterCount + 1 } }) ∨
    (s.closed = false ∧ alook s.queues q0 = none ∧
      (Push s q0 m).1.queues = aset s.queues q0
        { (createMessageQueue s.metrics q0).2 with
            messages := [{ m with queue := q0, timestamp := s.clock }],
            stats := { (createMessageQueue s.metrics q0).2.stats with
              messageCount :=
                (createMessageQueue s.metrics q0).2.stats.messageCount + 1,
              enqueuedTotal :=
                (createMessageQueue s.metrics q0).2.stats.enqueuedTotal + 1 } }) := by
  by_cases hc : s.closed = true
  · left
    exact ⟨hc, by simp [Push, hc]⟩
  · have hcf : s.closed = false := by
      revert hc
      cases s.closed <;> simp
    right
    cases halook : alook s.queues q0 with
    | some mq =>
        by_cases hfit : mq.messages.length < queueBufferCap
        · left
          refine ⟨hcf, mq, rfl, hfit, ?_⟩
          rw [push_exists_fit s q0 m mq hcf halook hfit]
        · right
          left
          refine ⟨hcf, mq, rfl, hfit, ?_⟩
          rw [push_overflow_eq s q0 m hcf mq halook hfit,
            moveToDLQ_exists_eq (bumpState s q0) q0
              { m with queue := q0, timestamp := s.clock } mq halook]
          rfl
    | none =>
        right
        right
        refine ⟨hcf, rfl, ?_⟩
        rw [push_absent s q0 m hcf halook]
        exact aset_aset s.queues q0 _ _

/-- Case analysis of the non-blocking `Pull`'s effect on the state. -/
theorem pull_state_cases (s : BrokerState) (q0 : String) :
    (Pull s q0).1 = s ∨
    (∃ mq msg rest, alook s.queues q0 = some mq ∧
      mq.messages = msg :: rest ∧
      (Pull s q0).1.queues = aset s.queues q0
        { mq with
            messages := rest,
            stats := { mq.stats with
              messageCount := mq.stats.messageCount - 1,
              dequeuedTotal := mq.stats.dequeuedTotal + 1 } }) := by
  unfold Pull PullWithTimeout
  by_cases hc : s.closed = true
  · left
    simp [hc]
  · have hcf : s.closed = false := by
      revert hc
      cases s.closed <;> simp
    cases halook : alook s.queues q0 with
    | none =>
        left
        simp [hcf, halook]
    | some mq =>
        cases hmsg : mq.messages with
        | nil =>
            left
            simp [hcf, halook, hmsg]
        | cons msg rest =>
            right
            refine ⟨mq, msg, rest, rfl, hmsg, ?_⟩
            simp [hcf, halook, hmsg, deliverMsg]

/-- Case analysis of `PurgeQueue`'s effect on the state. -/
theorem purge_state_cases (s : BrokerState) (q0 : String) :
    (alook s.queues q0 = none ∧ (PurgeQueue s q0).1 = s) ∨
    (∃ mq, alook s.queues q0 = some mq ∧
      (PurgeQueue s q0).1.queues = aset s.queues q0
        { mq with
            messages := [],
            stats := { mq.stats with
              messageCount :=
                mq.stats.messageCount - mq.messages.length } }) := by
  unfold PurgeQueue
  cases halook : alook s.queues q0 with
  | none => exact Or.inl ⟨rfl, rfl⟩
  | some mq => exact Or.inr ⟨mq, rfl, rfl⟩

/-- The invariant: for every queue, the enqueued total equals the dequeued
total plus the current depth plus the ghost count of purged messages. -/
def conserved (sg : BrokerState × Ghost) : Prop :=
  ∀ q, enqOf sg.1 q =
    deqOf sg.1 q + depthOf sg.1 q + (gcount sg.2.purged q : Int)

theorem conserved_init : conserved (initState, ghost0) := by
  intro q
  simp [enqOf, deqOf, depthOf, gcount, initState, ghost0, alook]

theorem conserved_runOp (sg : BrokerState × Ghost) (op : Op)
    (h : conserved sg) : conserved (runOp sg op) := by
  obtain ⟨s, g⟩ := sg
  have h' : ∀ r, enqOf s r =
      deqOf s r + depthOf s r + (gcount g.purged r : Int) := h
  cases op with
  | push q0 m =>
      have hst : (runOp (s, g) (Op.push q0 m)).1 = (Push s q0 m).1 := by
        simp only [runOp]
      have hgh : (runOp (s, g) (Op.push q0 m)).2.purged = g.purged := by
        simp only [runOp]
        split <;> rfl
      intro q
      rw [hst, hgh]
      rcases push_state_cases s q0 m with ⟨_, hs⟩ |
        ⟨_, mq, halook, _, hs⟩ | ⟨_, mq, halook, _, hs⟩ | ⟨_, halook, hs⟩
      · rw [hs]
        exact h' q
      · by_cases hq : q = q0
        · rw [hq]
          obtain ⟨he, hd, hm⟩ := (observers_aset s (Push s q0 m).1 q0 _ hs).2
          rw [he, hd, hm]
          dsimp only
          have h0 := h' q0
          have he0 : enqOf s q0 = mq.stats.enqueuedTotal := by
            simp [enqOf, halook]
          have hd0 : deqOf s q0 = mq.stats.dequeuedTotal := by
            simp [deqOf, halook]
          have hm0 : depthOf s q0 = mq.stats.messageCount := by
            simp [depthOf, halook]
          rw [he0, hd0, hm0] at h0
          omega
        · obtain ⟨he, hd, hm⟩ := (observers_aset s (Push s q0 m).1 q0 _ hs).1 q hq
          rw [he, hd, hm]
          exact h' q
      · by_cases hq : q = q0
        · rw [hq]
          obtain ⟨he, hd, hm⟩ := (observers_aset s (Push s q0 m).1 q0 _ hs).2
          rw [he, hd, hm]
          dsimp only
          have h0 := h' q0
          have he0 : enqOf s q0 = mq.stats.enqueuedTotal := by
            simp [enqOf, halook]
          have hd0 : deqOf s q0 = mq.stats.dequeuedTotal := by
            simp [deqOf, halook]
          have hm0 : depthOf s q0 = mq.stats.messageCount := by
            simp [depthOf, halook]
          rw [he0, hd0, hm0] at h0
          omega
        · obtain ⟨he, hd, hm⟩ := (observers_aset s (Push s q0 m).1 q0 _ hs).1 q hq
          rw [he, hd, hm]
          exact h' q
      · by_cases hq : q = q0
        · rw [hq]
          obtain ⟨he, hd, hm⟩ := (observers_aset s (Push s q0 m).1 q0 _ hs).2
          rw [he, hd, hm]
          dsimp only [createMessageQueue]
          have h0 := h' q0
          have he0 : enqOf s q0 = 0 := by
            simp [enqOf, halook]
          have hd0 : deqOf s q0 = 0 := by
            simp [deqOf, halook]
          have hm0 : depthOf s q0 = 0 := by
            simp [depthOf, halook]
          rw [he0, hd0, hm0] at h0
          omega
        · obtain ⟨he, hd, hm⟩ := (observers_aset s (Push s q0 m).1 q0 _ hs).1 q hq
          rw [he, hd, hm]
          exact h' q
  | pull q0 =>
      intro q
      have hst : (runOp (s, g) (Op.pull q0)).1 = (Pull s q0).1 := rfl
      have hgh : (runOp (s, g) (Op.pull q0)).2.purged = g.purged := rfl
      rw [hst, hgh]
      rcases pull_state_cases s q0 with hs | ⟨mq, msg, rest, halook, hmsg, hs⟩
      · rw [hs]
        exact h' q
      · by_cases hq : q = q0
        · rw [hq]
          obtain ⟨he, hd, hm⟩ := (observers_aset s (Pull s q0).1 q0 _ hs).2
          rw [he, hd, hm]
          dsimp only
          have h0 := h' q0
          have he0 : enqOf s q0 = mq.stats.enqueuedTotal := by
            simp [enqOf, halook]
          have hd0 : deqOf s q0 = mq.stats.dequeuedTotal := by
            simp [deqOf, halook]
          have hm0 : depthOf s q0 = mq.stats.messageCount := by
            simp [depthOf, halook]
          rw [he0, hd0, hm0] at h0
          omega
        · obtain ⟨he, hd, hm⟩ := (observers_aset s (Pull s q0).1 q0 _ hs).1 q hq
          rw [he, hd, hm]
          exact h' q
  | purge q0 =>
      intro q
      have hst : (runOp (s, g) (Op.purge q0)).1 = (PurgeQueue s q0).1 := rfl
      have hgh : (runOp (s, g) (Op.purge q0)).2.purged =
          gbump g.purged q0 (bufOf s q0).length := rfl
      rw [hst, hgh, gcount_gbump]
      rcases purge_state_cases s q0 with ⟨halook, hs⟩ | ⟨mq, halook, hs⟩
      · have hbuf : bufOf s q0 = [] := by
          simp [bufOf, halook]
        rw [hs, hbuf]
        have hz : (if q = q0 then ([] : List Message).length else 0) = 0 := by
          split <;> rfl
        rw [hz]
        have h0 := h' q
        omega
      · have hbuf : bufOf s q0 = mq.messages := by
          simp [bufOf, halook]
        rw [hbuf]
        by_cases hq : q = q0
        · rw [if_pos hq, hq]
          obtain ⟨he, hd, hm⟩ :=
            (observers_aset s (PurgeQueue s q0).1 q0 _ hs).2
          rw [he, hd, hm]
          dsimp only
          have h0 := h' q0
          have he0 : enqOf s q0 = mq.stats.enqueuedTotal := by
            simp [enqOf, halook]
          have hd0 : deqOf s q0 = mq.stats.dequeuedTotal := by
            simp [deqOf, halook]
          have hm0 : depthOf s q0 = mq.stats.messageCount := by
            simp [depthOf, halook]
          rw [he0, hd0, hm0] at h0
          omega
        · rw [if_neg hq]
          obtain ⟨he, hd, hm⟩ :=
            (observers_aset s (PurgeQueue s q0).1 q0 _ hs).1 q hq
          rw [he, hd, hm]
          have h0 := h' q
          omega

theorem conserved_runOps (ops : List Op) (sg : BrokerState × Ghost)
    (h : conserved sg) : conserved (runOps sg ops) := by
  induction ops generalizing sg with
  | nil => exact h
  | cons op rest ih => exact ih (runOp sg op) (conserved_runOp sg op h)

/-- C8 counterexample: for the sequential schedule of 1001 pushes into a
fresh queue, the equation `enqueued == dequeued + depth + purged +
dead-lettered-on-overflow` fails (1000 ≠ 0 + 1000 + 0 + 1): the overflowed
push never increments the enqueued counter, so the dead-letter term does
not belong in the equation. -/
theorem conservation_with_dlq_term_fails :
    enqOf (runOps (initState, ghost0) (pushSchedN "q" msgI 1001)).1 "q" =
      1000 ∧
    deqOf (runOps (initState, ghost0) (pushSchedN "q" msgI 1001)).1 "q" = 0 ∧
    depthOf (runOps (initState, ghost0) (pushSchedN "q" msgI 1001)).1 "q" =
      1000 ∧
    gcount (runOps (initState, ghost0) (pushSchedN "q" msgI 1001)).2.purged
      "q" = 0 ∧
    gcount (runOps (initState, ghost0)
      (pushSchedN "q" msgI 1001)).2.overflowed "q" = 1 ∧
    ¬ (enqOf (runOps (initState, ghost0) (pushSchedN "q" msgI 1001)).1 "q" =
        deqOf (runOps (initState, ghost0) (pushSchedN "q" msgI 1001)).1 "q" +
        depthOf (runOps (initState, ghost0) (pushSchedN "q" msgI 1001)).1
          "q" +
        (gcount (runOps (initState, ghost0)
          (pushSchedN "q" msgI 1001)).2.purged "q" : Int) +
        (gcount (runOps (initState, ghost0)
          (pushSchedN "q" msgI 1001)).2.overflowed "q" : Int)) := by
  rw [runOps_pushSchedN]
  show enqOf (mkState "q" msgI 1001) "q" = 1000 ∧
    deqOf (mkState "q" msgI 1001) "q" = 0 ∧
    depthOf (mkState "q" msgI 1001) "q" = 1000 ∧
    gcount (mkGhost "q" 1001).purged "q" = 0 ∧
    gcount (mkGhost "q" 1001).overflowed "q" = 1 ∧
    ¬ (enqOf (mkState "q" msgI 1001) "q" =
        deqOf (mkState "q" msgI 1001) "q" +
        depthOf (mkState "q" msgI 1001) "q" +
        (gcount (mkGhost "q" 1001).purged "q" : Int) +
        (gcount (mkGhost "q" 1001).overflowed "q" : Int))
  have e1 : enqOf (mkState "q" msgI 1001) "q" = 1000 := by
    rw [enqOf_mkState "q" msgI 1001 (by decide)]
    decide
  have e2 : deqOf (mkState "q" msgI 1001) "q" = 0 :=
    deqOf_mkState "q" msgI 1001 (by decide)
  have e3 : depthOf (mkState "q" msgI 1001) "q" = 1000 := by
    rw [depthOf_mkState "q" msgI 1001 (by decide)]
    decide
  have e4 : gcount (mkGhost "q" 1001).purged "q" = 0 := rfl
  have e5 : gcount (mkGhost "q" 1001).overflowed "q" = 1 := by
    decide
  refine ⟨e1, e2, e3, e4, e5, ?_⟩
  rw [e1, e2, e3, e4, e5]
  decide

/-- C8 (amended): for every queue Q and every sequential schedule of push,
pull, and purge operations on a fresh broker, the counters satisfy
`enqueued(Q) == dequeued(Q) + currentDepth(Q) + cumulativePurged(Q)`, where
cumulativePurged is the ghost count of messages discarded by purge; the
dead-lettered-on-overflow term does not appear, because an overflowed push
increments neither the enqueued counter nor the depth. -/
theorem queue_conservation (ops : List Op) (q : String) :
    enqOf (runOps (initState, ghost0) ops).1 q =
      deqOf (runOps (initState, ghost0) ops).1 q +
        depthOf (runOps (initState, ghost0) ops).1 q +
        (gcount (runOps (initState, ghost0) ops).2.purged q : Int) :=
  conserved_runOps ops (initState, ghost0) conserved_init q

end SimpleBroker
